import Mathlib

/-!
Verification development for the Neo assistant repository.

This file gives a shallow embedding, in Lean 4, of the parts of the code
that the specification claims talk about:

* `src/browser_agent/safety_guard.py` — the `SafetyGuard` class
  (operation classification, `check_operation`, input validation,
  URL safety, session confirmations and the in-memory audit log);
* `src/core/skill_manager.py` — the `SkillManager` class
  (skill registration, keyword extraction, the similarity score,
  `search_skills`, code cleaning/validation and `create_skill_file`);
* `src/core/memory.py` — the `VectorMemory` class
  (`add`, the keyword index and short-term compression);
* `src/tools/notes_skill.py` — the `notes_operator` tool schema.

Python strings are modelled as Lean `String`s; `str.lower` is modelled as
ASCII lowercasing (the strings the code compares against are ASCII or
Chinese, where Python's `lower` is also the identity).  Python floats are
modelled as exact rationals (`ℚ`).  Python dicts are modelled as
association lists with Python's assignment semantics (updating an existing
key keeps its position, a new key is appended).  Wall-clock timestamps,
file I/O and the LLM client are environment effects and are not part of
the state we reason about; where a method only writes files (e.g.
`_save_to_disk`) the call is a no-op in the model.
-/

namespace Neo

/-! ### Python string primitives -/

/-- `a.isPre b` : the char list `a` is a prefix of `b` (Python `str.startswith`
restricted to one candidate, on the char level). -/
def listIsPre : List Char → List Char → Bool
  | [], _ => true
  | _ :: _, [] => false
  | a :: as, b :: bs => a == b && listIsPre as bs

/-- Python's `needle in haystack` on strings: contiguous substring test. -/
def listHasSub (needle : List Char) : List Char → Bool
  | [] => needle.isEmpty
  | c :: cs => listIsPre needle (c :: cs) || listHasSub needle cs

/-- Python `needle in haystack` for strings. -/
def pyIn (needle haystack : String) : Bool :=
  listHasSub needle.data haystack.data

/-- Python `str.lower` (ASCII case mapping). -/
def pyLower (s : String) : String := ⟨s.data.map Char.toLower⟩

/-- Python `str.strip()` (strip surrounding whitespace). -/
def pyStrip (s : String) : String :=
  ⟨((s.data.dropWhile Char.isWhitespace).reverse.dropWhile Char.isWhitespace).reverse⟩

/-- Python `str.startswith` for one candidate prefix. -/
def pyStarts (p s : String) : Bool := listIsPre p.data s.data

/-- Python `s[:n]` for strings. -/
def pyTake (s : String) (n : Nat) : String := ⟨s.data.take n⟩

/-! ### `SafetyGuard` (src/browser_agent/safety_guard.py) -/

/-- `OperationLevel` enum. -/
inductive OperationLevel
  | safe
  | confirmRequired
  | forbidden
deriving DecidableEq, Repr

/-- The `.value` of an `OperationLevel` member. -/
def OperationLevel.value : OperationLevel → String
  | .safe => "safe"
  | .confirmRequired => "confirm_required"
  | .forbidden => "forbidden"

/-- `SafetyGuard.SAFE_OPERATIONS`. -/
def SAFE_OPERATIONS : List String :=
  ["navigate", "read", "scroll", "screenshot",
   "extract", "wait", "get_title", "get_url"]

/-- `SafetyGuard.CONFIRM_REQUIRED_OPERATIONS`. -/
def CONFIRM_REQUIRED_OPERATIONS : List String :=
  ["click", "fill", "login", "search",
   "submit", "select", "upload"]

/-- `SafetyGuard.FORBIDDEN_OPERATIONS`. -/
def FORBIDDEN_OPERATIONS : List String :=
  ["payment", "delete", "publish", "modify_settings",
   "download_file", "execute_script", "install_extension"]

/-- `SafetyGuard.SENSITIVE_SELECTORS`. -/
def SENSITIVE_SELECTORS : List String :=
  ["payment", "checkout", "buy", "purchase", "pay",
   "delete", "remove", "trash",
   "submit", "post", "publish", "send",
   "settings", "config", "admin"]

/-- `SafetyGuard.MAX_URL_LENGTH`. -/
def MAX_URL_LENGTH : Nat := 2048

/-- `SafetyGuard.MAX_INPUT_LENGTH`. -/
def MAX_INPUT_LENGTH : Nat := 10000

/-- `SafetyGuard.classify_operation`.  Set membership and the substring
scans are order-independent, so the Python `set` iteration is modelled by
`List.any` / `List.contains`. -/
def classifyOperation (action : String) (target : String := "") (value : String := "") :
    OperationLevel :=
  let actionLower := pyLower action
  if FORBIDDEN_OPERATIONS.contains actionLower then .forbidden
  else if FORBIDDEN_OPERATIONS.any
      (fun f => pyIn f actionLower || pyIn f (pyLower target)) then .forbidden
  else if SAFE_OPERATIONS.contains actionLower then .safe
  else if CONFIRM_REQUIRED_OPERATIONS.contains actionLower then .confirmRequired
  else if SENSITIVE_SELECTORS.any
      (fun sens => pyIn sens (pyLower target) || pyIn sens (pyLower value)) then
    .confirmRequired
  else .confirmRequired

/-- The `allowed_schemes` local of `SafetyGuard._is_safe_url`. -/
def allowedSchemes : List String := ["http", "https"]

/-- The `dangerous_patterns` local of `SafetyGuard._is_safe_url`. -/
def dangerousPatterns : List String :=
  ["javascript:", "data:", "vbscript:", "file://", "ftp://"]

/-- `SafetyGuard._is_safe_url`. -/
def isSafeUrl (url : String) : Bool :=
  let urlLower := pyStrip (pyLower url)
  if dangerousPatterns.any (fun p => pyStarts p urlLower) then false
  else if ¬ allowedSchemes.any (fun sch => pyStarts (sch ++ "://") urlLower) then
    if ¬ pyStarts "/" urlLower && ¬ pyStarts "." urlLower then false
    else true
  else true

/-- `SafetyGuard._validate_inputs`: `none` when valid, `some reason` when not. -/
def validateInputs (action target value : String) : Option String :=
  if MAX_URL_LENGTH < target.length then
    some "目标长度超过限制 (2048)"
  else if MAX_INPUT_LENGTH < value.length then
    some "输入值长度超过限制 (10000)"
  else if pyLower action == "navigate" && target ≠ "" && ¬ isSafeUrl target then
    some "URL不安全或协议不被允许"
  else none

/-- One entry of `SafetyGuard.audit_logs`.  The wall-clock `timestamp` and
the free-form `details` dict (always empty on this path) are omitted. -/
structure AuditEntry where
  action : String
  target : String
  level : OperationLevel
  approved : Bool
  result : String
deriving DecidableEq, Repr

/-- The mutable state of a `SafetyGuard` instance:
`session_confirmations` (all stored values are `True`, so the dict is a
key list) and `audit_logs`. -/
structure GuardState where
  sessionConfirmations : List String
  auditLogs : List AuditEntry
deriving Repr

/-- A fresh `SafetyGuard()`. -/
def initGuard : GuardState := ⟨[], []⟩

/-- The dict returned by `SafetyGuard.check_operation`.  The optional
`confirmation_message` key is `none` when absent. -/
structure CheckResult where
  allowed : Bool
  level : String
  reason : String
  requiresConfirmation : Bool
  confirmationMessage : Option String := none
deriving Repr

/-- `SafetyGuard._log_audit`. -/
def logAudit (s : GuardState) (action target : String) (level : OperationLevel)
    (approved : Bool) (result : String) : GuardState :=
  { s with auditLogs :=
      s.auditLogs ++ [⟨action, pyTake target 200, level, approved, result⟩] }

/-- `SafetyGuard._generate_confirmation_message`. -/
def generateConfirmationMessage (action target value : String) : String :=
  let actionDescriptions : List (String × String) :=
    [("click", "点击元素: " ++ target),
     ("fill", "在 " ++ target ++ " 中输入内容"),
     ("login", "登录到网站"),
     ("search", "搜索: " ++ target),
     ("submit", "提交表单: " ++ target),
     ("select", "选择选项: " ++ target),
     ("upload", "上传文件到: " ++ target)]
  let desc :=
    match actionDescriptions.lookup (pyLower action) with
    | some d => d
    | none => "执行操作: " ++ action
  let desc :=
    if value ≠ "" && value.length < 100 then
      if 50 < value.length then desc ++ " (内容: " ++ pyTake value 50 ++ "...)"
      else desc ++ " (内容: " ++ value ++ ")"
    else desc
  "⚠️ Browser Agent 请求确认:\n" ++ desc ++ "\n\n是否允许此操作？"

/-- The arguments of one `check_operation` call.  A confirmation callback
is modelled by the boolean it would return (`none`: no callback given). -/
structure CallArgs where
  action : String
  target : String := ""
  value : String := ""
  autoConfirm : Bool := false
  callback : Option Bool := none

/-- `SafetyGuard.check_operation`. -/
def checkOperation (s : GuardState) (a : CallArgs) : CheckResult × GuardState :=
  let level := classifyOperation a.action a.target a.value
  match validateInputs a.action a.target a.value with
  | some reason =>
      ({ allowed := false, level := level.value, reason := reason,
         requiresConfirmation := false }, s)
  | none =>
    match level with
    | .forbidden =>
        let s := logAudit s a.action a.target level false "操作被禁止"
        ({ allowed := false, level := level.value,
           reason := "操作 '" ++ a.action ++ "' 被安全策略禁止",
           requiresConfirmation := false }, s)
    | .safe =>
        let s := logAudit s a.action a.target level true "安全操作，自动批准"
        ({ allowed := true, level := level.value, reason := "安全操作",
           requiresConfirmation := false }, s)
    | .confirmRequired =>
        let sessionKey := a.action ++ ":" ++ a.target
        if s.sessionConfirmations.contains sessionKey then
          let s := logAudit s a.action a.target level true "会话内已确认"
          ({ allowed := true, level := level.value, reason := "会话内已确认",
             requiresConfirmation := false }, s)
        else if a.autoConfirm then
          let s := logAudit s a.action a.target level true "自动确认模式"
          ({ allowed := true, level := level.value, reason := "自动确认",
             requiresConfirmation := false }, s)
        else
          match a.callback with
          | some true =>
              let s := { s with sessionConfirmations :=
                           s.sessionConfirmations ++ [sessionKey] }
              let s := logAudit s a.action a.target level true "用户确认通过"
              ({ allowed := true, level := level.value, reason := "用户已确认",
                 requiresConfirmation := false }, s)
          | some false =>
              let s := logAudit s a.action a.target level false "用户拒绝"
              ({ allowed := false, level := level.value, reason := "用户拒绝操作",
                 requiresConfirmation := false }, s)
          | none =>
              let s := logAudit s a.action a.target level false "等待确认"
              ({ allowed := false, level := level.value, reason := "需要用户确认",
                 requiresConfirmation := true,
                 confirmationMessage :=
                   some (generateConfirmationMessage a.action a.target a.value) }, s)

/-- Run a sequence of `check_operation` calls, keeping only the state. -/
def runCalls (s : GuardState) (calls : List CallArgs) : GuardState :=
  calls.foldl (fun st c => (checkOperation st c).2) s

/-! ### Helper lemmas about `checkOperation` -/

theorem checkOperation_of_invalid (s : GuardState) (a : CallArgs) (r : String)
    (hv : validateInputs a.action a.target a.value = some r) :
    (checkOperation s a).1.allowed = false ∧ (checkOperation s a).2 = s := by
  unfold checkOperation
  rw [hv]
  exact ⟨rfl, rfl⟩

theorem checkOperation_forbidden (s : GuardState) (a : CallArgs)
    (hv : validateInputs a.action a.target a.value = none)
    (hl : classifyOperation a.action a.target a.value = .forbidden) :
    (checkOperation s a).1.allowed = false := by
  unfold checkOperation
  rw [hv, hl]

theorem checkOperation_safe (s : GuardState) (a : CallArgs)
    (hv : validateInputs a.action a.target a.value = none)
    (hl : classifyOperation a.action a.target a.value = .safe) :
    (checkOperation s a).1.allowed = true ∧
      (checkOperation s a).1.requiresConfirmation = false := by
  unfold checkOperation
  rw [hv, hl]
  exact ⟨rfl, rfl⟩

theorem checkOperation_confirm_pass (s : GuardState) (a : CallArgs)
    (hv : validateInputs a.action a.target a.value = none)
    (hl : classifyOperation a.action a.target a.value = .confirmRequired)
    (hk : (a.action ++ ":" ++ a.target) ∈ s.sessionConfirmations ∨ a.autoConfirm = true) :
    (checkOperation s a).1.allowed = true ∧
      (checkOperation s a).1.requiresConfirmation = false := by
  unfold checkOperation
  rw [hv, hl]
  simp only
  rcases hk with hk | hk
  · rw [if_pos (by simpa [List.elem_iff] using hk)]
    exact ⟨rfl, rfl⟩
  · by_cases hc : s.sessionConfirmations.contains (a.action ++ ":" ++ a.target)
    · rw [if_pos hc]; exact ⟨rfl, rfl⟩
    · rw [if_neg hc, if_pos hk]; exact ⟨rfl, rfl⟩

/-- The session-confirmation cache only grows: `check_operation` never
removes a key. -/
theorem sessions_mono (s : GuardState) (c : CallArgs) (k : String)
    (hk : k ∈ s.sessionConfirmations) :
    k ∈ ((checkOperation s c).2).sessionConfirmations := by
  unfold checkOperation
  cases hv : validateInputs c.action c.target c.value with
  | some r => exact hk
  | none =>
    cases hl : classifyOperation c.action c.target c.value with
    | forbidden => exact hk
    | safe => exact hk
    | confirmRequired =>
      simp only
      split
      · exact hk
      · split
        · exact hk
        · cases hcb : c.callback with
          | none => exact hk
          | some b =>
            cases b with
            | false => exact hk
            | true => simp [logAudit]; exact Or.inl hk

/-- Monotonicity of the cache over a whole sequence of calls. -/
theorem sessions_mono_runCalls (s : GuardState) (calls : List CallArgs) (k : String)
    (hk : k ∈ s.sessionConfirmations) :
    k ∈ (runCalls s calls).sessionConfirmations := by
  induction calls generalizing s with
  | nil => exact hk
  | cons c cs ih => exact ih _ (sessions_mono s c k hk)

/-- Evaluation of the callback branches of a confirm-required call that
missed the cache and has `auto_confirm` off. -/
theorem checkOperation_confirm_cb_eval (s : GuardState) (a : CallArgs)
    (hv : validateInputs a.action a.target a.value = none)
    (hl : classifyOperation a.action a.target a.value = .confirmRequired)
    (hc : s.sessionConfirmations.contains (a.action ++ ":" ++ a.target) = false)
    (hauto : a.autoConfirm = false) :
    (a.callback = some true →
       (checkOperation s a).1.allowed = true ∧
       ((checkOperation s a).2).sessionConfirmations =
         s.sessionConfirmations ++ [a.action ++ ":" ++ a.target]) ∧
    (a.callback = some false → (checkOperation s a).1.allowed = false) ∧
    (a.callback = none → (checkOperation s a).1.allowed = false) := by
  unfold checkOperation
  rw [hv, hl]
  simp only
  rw [if_neg (by simp only [hc]; exact Bool.false_ne_true),
      if_neg (by simp only [hauto]; exact Bool.false_ne_true)]
  refine ⟨fun hcb => ?_, fun hcb => ?_, fun hcb => ?_⟩ <;>
    simp [hcb, logAudit]

/-- Dissection of a successful call: if `check_operation` allows the
operation, the inputs were valid and the level was safe, or it was
confirm-required and passed via the cache, `auto_confirm`, or a positive
callback — and in the last case the key is now cached. -/
theorem checkOperation_allowed_cases (s : GuardState) (a : CallArgs)
    (h : (checkOperation s a).1.allowed = true) :
    validateInputs a.action a.target a.value = none ∧
      (classifyOperation a.action a.target a.value = .safe ∨
       (classifyOperation a.action a.target a.value = .confirmRequired ∧
        ((a.action ++ ":" ++ a.target) ∈ s.sessionConfirmations ∨
         a.autoConfirm = true ∨
         (a.action ++ ":" ++ a.target) ∈
           ((checkOperation s a).2).sessionConfirmations))) := by
  cases hv : validateInputs a.action a.target a.value with
  | some r =>
    have := (checkOperation_of_invalid s a r hv).1
    rw [h] at this
    exact absurd this (by simp)
  | none =>
    refine ⟨rfl, ?_⟩
    cases hl : classifyOperation a.action a.target a.value with
    | forbidden =>
      have := checkOperation_forbidden s a hv hl
      rw [h] at this
      exact absurd this (by simp)
    | safe => exact Or.inl rfl
    | confirmRequired =>
      refine Or.inr ⟨rfl, ?_⟩
      by_cases hc : s.sessionConfirmations.contains (a.action ++ ":" ++ a.target)
      · exact Or.inl (by simpa [List.elem_iff] using hc)
      · by_cases hauto : a.autoConfirm
        · exact Or.inr (Or.inl hauto)
        · have heval := checkOperation_confirm_cb_eval s a hv hl
            (by simpa using hc) (by simpa using hauto)
          cases hcb : a.callback with
          | none =>
            have := heval.2.2 hcb
            rw [h] at this
            exact absurd this (by simp)
          | some b =>
            cases b with
            | false =>
              have := heval.2.1 hcb
              rw [h] at this
              exact absurd this (by simp)
            | true =>
              refine Or.inr (Or.inr ?_)
              rw [(heval.1 hcb).2]
              simp

/-! ### Claim theorems for the safety guard -/

/-- C1: every action string in `FORBIDDEN_OPERATIONS` is classified
`forbidden` for every target and value, and `check_operation` returns
`allowed = false` for it in every state (so regardless of prior session
confirmations) and for every `auto_confirm` flag and callback. -/
theorem forbidden_action_never_allowed (action target value : String)
    (s : GuardState) (autoConfirm : Bool) (cb : Option Bool)
    (h : action ∈ FORBIDDEN_OPERATIONS) :
    classifyOperation action target value = .forbidden ∧
    (checkOperation s ⟨action, target, value, autoConfirm, cb⟩).1.allowed = false := by
  have hlow : pyLower action = action := by fin_cases h <;> rfl
  have hcont : FORBIDDEN_OPERATIONS.contains action = true := List.elem_iff.mpr h
  have hcls : classifyOperation action target value = .forbidden := by
    unfold classifyOperation
    rw [hlow, if_pos hcont]
  refine ⟨hcls, ?_⟩
  cases hv : validateInputs action target value with
  | some r => exact (checkOperation_of_invalid s ⟨action, target, value, autoConfirm, cb⟩ r hv).1
  | none => exact checkOperation_forbidden s ⟨action, target, value, autoConfirm, cb⟩ hv hcls

/-- Witness for C1 at `action = "payment"` with `auto_confirm = true` and a
confirming callback. -/
theorem forbidden_action_never_allowed_witness :
    "payment" ∈ FORBIDDEN_OPERATIONS ∧
    (classifyOperation "payment" "https://shop.example" "99" = .forbidden ∧
     (checkOperation initGuard
        ⟨"payment", "https://shop.example", "99", true, some true⟩).1.allowed = false) :=
  ⟨by decide,
   forbidden_action_never_allowed "payment" "https://shop.example" "99"
     initGuard true (some true) (by decide)⟩

/-- C10: if some member of `FORBIDDEN_OPERATIONS` occurs as a substring of
the lowercased action or of the lowercased target, `classify_operation`
returns `forbidden` — the forbidden-substring scan runs before the
safe-set lookup. -/
theorem forbidden_substring_overrides (action target value : String)
    (h : ∃ f ∈ FORBIDDEN_OPERATIONS,
           pyIn f (pyLower action) = true ∨ pyIn f (pyLower target) = true) :
    classifyOperation action target value = .forbidden := by
  obtain ⟨f, hf, hin⟩ := h
  have hany : FORBIDDEN_OPERATIONS.any
      (fun f => pyIn f (pyLower action) || pyIn f (pyLower target)) = true :=
    List.any_eq_true.mpr ⟨f, hf, by rcases hin with h | h <;> simp [h]⟩
  unfold classifyOperation
  by_cases hc : FORBIDDEN_OPERATIONS.contains (pyLower action) = true
  · rw [if_pos hc]
  · rw [if_neg hc, if_pos hany]

/-- Witness for C10: the safe action `"read"` with a target containing
`"delete"` is classified forbidden, not safe. -/
theorem forbidden_substring_overrides_witness :
    "read" ∈ SAFE_OPERATIONS ∧
    classifyOperation "read" "please delete this row" "" = .forbidden :=
  ⟨by decide,
   forbidden_substring_overrides "read" "please delete this row" ""
     ⟨"delete", by decide, Or.inr (by decide)⟩⟩

/-- C8: a `navigate` whose target starts (case-insensitively, after
stripping surrounding whitespace) with `javascript:`, `data:`, `file://`
or `ftp://` is rejected by `check_operation` in every state. -/
theorem unsafe_url_navigation_rejected (target value : String) (s : GuardState)
    (autoConfirm : Bool) (cb : Option Bool)
    (h : ∃ p ∈ (["javascript:", "data:", "file://", "ftp://"] : List String),
           pyStarts p (pyStrip (pyLower target)) = true) :
    (checkOperation s ⟨"navigate", target, value, autoConfirm, cb⟩).1.allowed = false := by
  obtain ⟨p, hp, hst⟩ := h
  have htne : target ≠ "" := by
    intro heq
    subst heq
    fin_cases hp <;> exact absurd hst (by decide)
  have hunsafe : isSafeUrl target = false := by
    have hany : dangerousPatterns.any
        (fun q => pyStarts q (pyStrip (pyLower target))) = true :=
      List.any_eq_true.mpr ⟨p, by fin_cases hp <;> decide, hst⟩
    simp only [isSafeUrl]
    rw [if_pos hany]
  have hval : ∃ r, validateInputs "navigate" target value = some r := by
    unfold validateInputs
    by_cases h1 : MAX_URL_LENGTH < target.length
    · rw [if_pos h1]; exact ⟨_, rfl⟩
    · rw [if_neg h1]
      by_cases h2 : MAX_INPUT_LENGTH < value.length
      · rw [if_pos h2]; exact ⟨_, rfl⟩
      · rw [if_neg h2, if_pos (by simp [htne, hunsafe]; rfl)]
        exact ⟨_, rfl⟩
  obtain ⟨r, hr⟩ := hval
  exact (checkOperation_of_invalid s ⟨"navigate", target, value, autoConfirm, cb⟩ r hr).1

/-- Witness for C8 at a mixed-case, whitespace-padded `javascript:` URL. -/
theorem unsafe_url_navigation_rejected_witness :
    (checkOperation initGuard
       ⟨"navigate", " JavaScript:alert(1) ", "", true, some true⟩).1.allowed = false :=
  unsafe_url_navigation_rejected " JavaScript:alert(1) " "" initGuard true (some true)
    ⟨"javascript:", by decide, by decide⟩

/-- C4 (counterexample): a call that fails input validation — here a
`navigate` to a `javascript:` URL — returns without appending to the
audit log, so the log does not grow by one on every decision. -/
theorem audit_log_growth_counterexample :
    ((checkOperation initGuard
        ⟨"navigate", "javascript:alert(1)", "", false, none⟩).2).auditLogs.length ≠
      initGuard.auditLogs.length + 1 := by decide

/-- C4 (amended): `check_operation` appends exactly one audit entry when
the inputs pass `_validate_inputs` (on every decision path, including
rejections), and appends none when validation fails. -/
theorem audit_log_growth (s : GuardState) (a : CallArgs) :
    ((checkOperation s a).2).auditLogs.length =
      s.auditLogs.length +
        (if validateInputs a.action a.target a.value = none then 1 else 0) := by
  cases hv : validateInputs a.action a.target a.value with
  | some r =>
    rw [(checkOperation_of_invalid s a r hv).2]
    simp [hv]
  | none =>
    rw [if_pos rfl]
    unfold checkOperation
    rw [hv]
    cases hl : classifyOperation a.action a.target a.value with
    | forbidden => simp [logAudit]
    | safe => simp [logAudit]
    | confirmRequired =>
      simp only
      split
      · simp [logAudit]
      · split
        · simp [logAudit]
        · cases a.callback with
          | none => simp [logAudit]
          | some b => cases b <;> simp [logAudit]

/-- C3: once a call is allowed, every later identical call on the same
guard instance — after any sequence of intervening `check_operation`
calls — is allowed as well, with `requires_confirmation = false`. -/
theorem approved_call_stays_approved (s : GuardState) (a : CallArgs)
    (calls : List CallArgs)
    (h : (checkOperation s a).1.allowed = true) :
    (checkOperation (runCalls (checkOperation s a).2 calls) a).1.allowed = true ∧
    (checkOperation (runCalls (checkOperation s a).2 calls) a).1.requiresConfirmation
      = false := by
  obtain ⟨hv, hcases⟩ := checkOperation_allowed_cases s a h
  rcases hcases with hsafe | ⟨hconf, hkey⟩
  · exact checkOperation_safe _ a hv hsafe
  · refine checkOperation_confirm_pass _ a hv hconf ?_
    rcases hkey with hk | hauto | hk
    · exact Or.inl (sessions_mono_runCalls _ calls _ (sessions_mono s a _ hk))
    · exact Or.inr hauto
    · exact Or.inl (sessions_mono_runCalls _ calls _ hk)

/-- Witness for C3: a click approved by a user callback stays approved
after an unrelated intervening call, without a new confirmation. -/
theorem approved_call_stays_approved_witness :
    (checkOperation
        (runCalls
          (checkOperation initGuard ⟨"click", "#menu", "", false, some true⟩).2
          [⟨"read", "page", "", false, none⟩])
        ⟨"click", "#menu", "", false, some true⟩).1.allowed = true ∧
    (checkOperation
        (runCalls
          (checkOperation initGuard ⟨"click", "#menu", "", false, some true⟩).2
          [⟨"read", "page", "", false, none⟩])
        ⟨"click", "#menu", "", false, some true⟩).1.requiresConfirmation = false :=
  approved_call_stays_approved initGuard ⟨"click", "#menu", "", false, some true⟩
    [⟨"read", "page", "", false, none⟩] (by decide)

/-! ### `SkillManager` (src/core/skill_manager.py) -/

/-- A char in the CJK range `[一-龥]` of the keyword regex. -/
def isCJK (c : Char) : Bool := 0x4e00 ≤ c.toNat && c.toNat ≤ 0x9fa5

/-- A char in `[a-zA-Z]`. -/
def isAsciiAlpha (c : Char) : Bool :=
  (97 ≤ c.toNat && c.toNat ≤ 122) || (65 ≤ c.toNat && c.toNat ≤ 90)

/-- Character class for the regex `[一-龥]+|[a-zA-Z]+`:
`some true` for CJK, `some false` for an ASCII letter, `none` otherwise. -/
def tokenClass (c : Char) : Option Bool :=
  if isCJK c then some true else if isAsciiAlpha c then some false else none

/-- Recursion core of `re.findall(r'[一-龥]+|[a-zA-Z]+', text)`: the two
classes are disjoint, so the matches are the maximal runs of each class.
Every step consumes at least one character, so a fuel equal to the input
length (as supplied by `findWordRuns`) never runs out. -/
def findWordRunsAux : Nat → List Char → List (List Char)
  | 0, _ => []
  | _ + 1, [] => []
  | fuel + 1, c :: cs =>
    match tokenClass c with
    | none => findWordRunsAux fuel cs
    | some b =>
      (c :: cs.takeWhile (fun d => tokenClass d == some b)) ::
        findWordRunsAux fuel (cs.dropWhile (fun d => tokenClass d == some b))

/-- `re.findall(r'[一-龥]+|[a-zA-Z]+', text)`. -/
def findWordRuns (l : List Char) : List (List Char) := findWordRunsAux l.length l

/-- The `stop_words` of `SkillManager._extract_keywords`. -/
def SM_STOP_WORDS : List String :=
  ["的", "是", "在", "了", "和", "与", "或", "有", "这", "那", "一个", "可以", "用于", "支持"]

/-- `SkillManager._extract_keywords`. -/
def extractKeywordsSM (text : String) : List String :=
  (findWordRuns text.data).filterMap (fun w =>
    let word : String := ⟨w⟩
    if 1 < w.length ∧ pyLower word ∉ SM_STOP_WORDS then some (pyLower word) else none)

/-- `SkillManager._calculate_similarity`, with floats as exact rationals.
Python `set(...)` is modelled by `List.dedup` (the length and the bonus
count are independent of the set's iteration order). -/
def calculateSimilarity (queryKeywords skillKeywords : List String) : ℚ :=
  if queryKeywords = [] ∨ skillKeywords = [] then 0
  else
    let querySet := queryKeywords.dedup
    let skillSet := skillKeywords.dedup
    let intersection := querySet.filter (fun k => k ∈ skillSet)
    let baseScore : ℚ := (intersection.length : ℚ) / ((max querySet.length 1 : Nat) : ℚ)
    let bonus : ℚ := queryKeywords.foldl (fun acc qk =>
        skillKeywords.foldl (fun acc2 sk =>
          if pyIn qk sk || pyIn sk qk then acc2 + 1/10 else acc2) acc) 0
    min (baseScore + bonus) 1

/-- The relevance score as the spec words it: intersection size of the two
keyword sets over the number of (distinct) query keywords, plus 0.1 per
substring-containment pair of a query keyword and a skill keyword, capped
at 1.0.  (Division by zero in `ℚ` yields `0`, covering the no-keyword
case.) -/
def specRelevanceScore (queryKeywords skillKeywords : List String) : ℚ :=
  min (((queryKeywords.toFinset ∩ skillKeywords.toFinset).card : ℚ) /
        (queryKeywords.toFinset.card : ℚ) +
       ((queryKeywords.product skillKeywords).countP
          (fun p => pyIn p.1 p.2 || pyIn p.2 p.1) : ℚ) / 10) 1

/-- The inner bonus loop accumulates 0.1 per matching skill keyword. -/
theorem innerFold_eq (sks : List String) (qk : String) (acc : ℚ) :
    sks.foldl (fun acc2 sk => if pyIn qk sk || pyIn sk qk then acc2 + 1/10 else acc2) acc
      = acc + (sks.countP (fun sk => pyIn qk sk || pyIn sk qk) : ℚ) / 10 := by
  induction sks generalizing acc with
  | nil => simp
  | cons sk sks ih =>
    by_cases h : (pyIn qk sk || pyIn sk qk) = true
    · rw [List.foldl_cons, if_pos h, ih]
      simp only [List.countP_cons, h, if_pos]
      push_cast
      ring
    · rw [List.foldl_cons, if_neg h, ih]
      simp [List.countP_cons, h]

/-- The nested bonus loops accumulate 0.1 per containment pair of the two
keyword lists. -/
theorem outerFold_eq (qs sks : List String) (acc : ℚ) :
    qs.foldl (fun acc qk =>
        sks.foldl (fun acc2 sk =>
          if pyIn qk sk || pyIn sk qk then acc2 + 1/10 else acc2) acc) acc
      = acc + ((qs.product sks).countP
          (fun p => pyIn p.1 p.2 || pyIn p.2 p.1) : ℚ) / 10 := by
  induction qs generalizing acc with
  | nil => simp [List.product]
  | cons qk qs ih =>
    rw [List.foldl_cons, innerFold_eq, ih]
    have hprod : (qk :: qs).product sks = sks.map (Prod.mk qk) ++ qs.product sks := by
      simp [List.product]
    rw [hprod, List.countP_append, List.countP_map]
    have : ((fun p : String × String => pyIn p.1 p.2 || pyIn p.2 p.1) ∘ Prod.mk qk)
        = fun sk => pyIn qk sk || pyIn sk qk := rfl
    rw [this]
    push_cast
    ring

/-- The filtered-dedup intersection length is the card of the Finset
intersection of the two keyword sets. -/
theorem interCard_eq (q s : List String) :
    (q.dedup.filter (fun k => k ∈ s.dedup)).length = (q.toFinset ∩ s.toFinset).card := by
  have hnd : (q.dedup.filter (fun k => k ∈ s.dedup)).Nodup := q.nodup_dedup.filter _
  have hset : (q.dedup.filter (fun k => k ∈ s.dedup)).toFinset
      = q.toFinset ∩ s.toFinset := by
    ext a
    simp [List.mem_filter, List.mem_dedup]
  calc (q.dedup.filter (fun k => k ∈ s.dedup)).length
      = (q.dedup.filter (fun k => k ∈ s.dedup)).toFinset.card := by
        rw [List.card_toFinset, hnd.dedup]
    _ = (q.toFinset ∩ s.toFinset).card := by rw [hset]

/-- C7: the relevance score `_calculate_similarity` computes for a query
keyword list against a skill keyword list (as used by `search_skills`)
equals the spec's formula: set-intersection size over the query keyword
count, plus 0.1 per substring-containment pair, capped at 1.0. -/
theorem similarity_matches_spec_formula (queryKeywords skillKeywords : List String) :
    calculateSimilarity queryKeywords skillKeywords
      = specRelevanceScore queryKeywords skillKeywords := by
  unfold calculateSimilarity specRelevanceScore
  by_cases hq : queryKeywords = []
  · subst hq
    simp [List.product]
  · by_cases hs : skillKeywords = []
    · subst hs
      have hprod : queryKeywords.product ([] : List String) = [] := by
        simp [List.product]
      simp [hprod]
    · rw [if_neg (by simp [hq, hs])]
      simp only
      rw [outerFold_eq, interCard_eq, List.card_toFinset]
      have hq1 : 1 ≤ queryKeywords.dedup.length := by
        rcases hd : queryKeywords.dedup with _ | ⟨a, l⟩
        · exact absurd ((List.dedup_eq_nil _).mp hd) hq
        · simp
      rw [Nat.max_eq_left hq1, zero_add]

/-! ### Python dicts, schemas and `register_skill` -/

/-- Python dict assignment `d[k] = v`: an existing key keeps its position,
a new key is appended. -/
def pyAssign {α : Type} (fs : List (String × α)) (k : String) (v : α) :
    List (String × α) :=
  if fs.any (fun p => p.1 == k) then
    fs.map (fun p => if p.1 == k then (k, v) else p)
  else fs ++ [(k, v)]

/-- Python values as they appear in tool schemas: strings, lists and
dicts (the schemas in this repository contain no other value shapes). -/
inductive PyVal where
  | str : String → PyVal
  | list : List PyVal → PyVal
  | dict : List (String × PyVal) → PyVal

/-- `k in d` for a dict. -/
def hasKey (fs : List (String × PyVal)) (k : String) : Bool :=
  (fs.lookup k).isSome

/-- `d.get(k, default)` restricted to string values, which is how
`_build_skill_index` and `search_skills` consume the schema fields they
read (every such field in the modelled schemas is a string). -/
def pyGetStr (fs : List (String × PyVal)) (k : String) (dflt : String) : String :=
  match fs.lookup k with
  | some (.str s) => s
  | _ => dflt

/-- `d.get(k, {})` for a dict-valued field. -/
def pyGetDict (fs : List (String × PyVal)) (k : String) : List (String × PyVal) :=
  match fs.lookup k with
  | some (.dict ds) => ds
  | _ => []

/-- One entry of `SkillManager.skills` (the stored callable is an opaque
runtime object and is omitted from the model). -/
structure SkillRec where
  schema : PyVal
  source : String
  sourceType : String
  sourcePath : String

/-- `SkillManager.register_skill`.  `none` models the call raising
(`KeyError` when `schema["function"]` has no `"name"`, `TypeError` when
`schema["function"]` is not a dict or the name is unhashable);
`some (b, skills)` models a normal return of `b` with the updated
registry. -/
def registerSkill (skills : List (String × SkillRec)) (name : String)
    (schemaFields : List (String × PyVal)) (sourceType : String := "python")
    (sourcePath : Option String := none) :
    Option (Bool × List (String × SkillRec)) :=
  let fields :=
    if ¬ hasKey schemaFields "function" ∧ hasKey schemaFields "name" then
      [("type", PyVal.str "function"), ("function", PyVal.dict schemaFields)]
    else schemaFields
  if ¬ hasKey fields "function" then some (false, skills)
  else
    match fields.lookup "function" with
    | some (.dict funcFields) =>
      match funcFields.lookup "name" with
      | some (.str realName) =>
          some (true,
            pyAssign skills realName
              ⟨.dict fields, name, sourceType, sourcePath.getD name⟩)
      | some _ => none
      | none => none
    | some _ => none
    | none => none

/-- C5 (counterexample): a schema whose `"function"` value has no
`"name"` key makes `register_skill` raise a `KeyError` instead of
returning `False`. -/
theorem register_skill_missing_name_raises :
    registerSkill [] "broken" [("function", PyVal.dict [])] = none := rfl

/-- C5 (amended): `register_skill` returns `False` (registry unchanged)
when the schema has neither a `"function"` nor a top-level `"name"` key;
but when the schema has a `"function"` dict lacking `"name"`, the call
raises `KeyError` rather than returning a boolean. -/
theorem register_skill_rejects (skills : List (String × SkillRec)) (name : String)
    (schemaFields : List (String × PyVal)) (sourceType : String)
    (sourcePath : Option String) :
    (hasKey schemaFields "function" = false → hasKey schemaFields "name" = false →
       registerSkill skills name schemaFields sourceType sourcePath
         = some (false, skills)) ∧
    (∀ funcFields, schemaFields.lookup "function" = some (.dict funcFields) →
       funcFields.lookup "name" = none →
       registerSkill skills name schemaFields sourceType sourcePath = none) := by
  constructor
  · intro hf hn
    simp [registerSkill, hf, hn]
  · intro funcFields hf hn
    have hk : hasKey schemaFields "function" = true := by simp [hasKey, hf]
    simp [registerSkill, hk, hf, hn]

/-- Witness for C5 (amended): an empty schema is rejected with `False`;
a schema with an empty `"function"` dict raises. -/
theorem register_skill_rejects_witness :
    registerSkill [] "w" [] "python" none = some (false, []) ∧
    registerSkill [] "x" [("function", PyVal.dict [])] "python" none = none :=
  ⟨(register_skill_rejects [] "w" [] "python" none).1 rfl rfl,
   (register_skill_rejects [] "x" [("function", PyVal.dict [])] "python" none).2
     [] rfl rfl⟩

/-! ### Skill index and search -/

/-- `[a-z]`. -/
def isLowerAZ (c : Char) : Bool := 97 ≤ c.toNat && c.toNat ≤ 122

/-- `[A-Z]`. -/
def isUpperAZ (c : Char) : Bool := 65 ≤ c.toNat && c.toNat ≤ 90

/-- Recursion core of `re.findall(r'[A-Z]?[a-z]+|[A-Z]+(?=[A-Z]|$)', name)`:
camel/snake-case splitting, with the regex's backtracking behaviour on
uppercase runs (a run followed by a non-uppercase char yields the run
minus its last char, which is then rescanned).  Every step consumes at
least one character, so a fuel equal to the input length (as supplied by
`nameParts`) never runs out. -/
def namePartsAux : Nat → List Char → List (List Char)
  | 0, _ => []
  | _ + 1, [] => []
  | fuel + 1, c :: cs =>
    if isUpperAZ c then
      match cs with
      | [] => [[c]]
      | d :: ds =>
        if isLowerAZ d then
          (c :: d :: ds.takeWhile isLowerAZ) ::
            namePartsAux fuel (ds.dropWhile isLowerAZ)
        else if isUpperAZ d then
          let run := c :: d :: ds.takeWhile isUpperAZ
          match ds.dropWhile isUpperAZ with
          | [] => [run]
          | e :: es =>
            run.dropLast :: namePartsAux fuel (run.getLast (by simp) :: e :: es)
        else namePartsAux fuel (d :: ds)
    else if isLowerAZ c then
      (c :: cs.takeWhile isLowerAZ) :: namePartsAux fuel (cs.dropWhile isLowerAZ)
    else namePartsAux fuel cs

/-- `re.findall(r'[A-Z]?[a-z]+|[A-Z]+(?=[A-Z]|$)', name)`. -/
def nameParts (l : List Char) : List (List Char) := namePartsAux l.length l

/-- The keyword list `_build_skill_index` computes for one skill:
description keywords, then name parts, then each parameter's lowercased
name and description keywords; `list(set(keywords))` is modelled by
`dedup` (search scores do not depend on the set's iteration order). -/
def buildSkillKeywords (skillName : String) (schema : PyVal) : List String :=
  let func : List (String × PyVal) :=
    match schema with
    | .dict fs => pyGetDict fs "function"
    | _ => []
  let descKeywords := extractKeywordsSM (pyGetStr func "description" "")
  let namePartKeywords := (nameParts skillName.data).map (fun w => pyLower ⟨w⟩)
  let params := pyGetDict (pyGetDict func "parameters") "properties"
  let paramKeywords := (params.map (fun p =>
      pyLower p.1 ::
        (match p.2 with
         | .dict pfs =>
           match pfs.lookup "description" with
           | some (.str d) => extractKeywordsSM d
           | _ => []
         | _ => []))).flatten
  (descKeywords ++ namePartKeywords ++ paramKeywords).dedup

/-- One element of the list `search_skills` returns. -/
structure SkillResult where
  name : String
  description : String
  score : ℚ
  source : String
  sourceType : String
deriving DecidableEq

/-- `SkillManager.search_skills` against a registry, with
`skill_embeddings` recomputed from it as `_build_skill_index` does.
Python's `sorted(..., reverse=True)` over the dict's insertion order is a
stable descending sort; stable sorts of a list under a total preorder
agree, so it is modelled by the stable `insertionSort` with the
reflexive descending comparison. -/
def searchSkills (skills : List (String × SkillRec)) (query : String)
    (topK : Nat := 5) : List SkillResult :=
  let queryKeywords := extractKeywordsSM query
  let scores := skills.map (fun p =>
    (p.1, p.2, calculateSimilarity queryKeywords (buildSkillKeywords p.1 p.2.schema)))
  let sortedSkills :=
    (scores.insertionSort (fun a b => b.2.2 ≤ a.2.2)).take topK
  sortedSkills.filterMap (fun p =>
    if 0 < p.2.2 then
      let funcFields : List (String × PyVal) :=
        match p.2.1.schema with
        | .dict fs => pyGetDict fs "function"
        | _ => []
      some { name := p.1, description := pyGetStr funcFields "description" "",
             score := p.2.2, source := p.2.1.source,
             sourceType := p.2.1.sourceType }
    else none)

/-! ### The notes skill (src/tools/notes_skill.py) -/

/-- An ASCII apostrophe (written via its code point). -/
def apos : String := ⟨[Char.ofNat 39]⟩

/-- `NotesSkill.get_tool_definition()`. -/
def notesToolSchema : List (String × PyVal) :=
  [("type", .str "function"),
   ("function", .dict
     [("name", .str "notes_operator"),
      ("description", .str "macOS 备忘录操作工具。支持创建、读取和追加备忘录。创建时支持HTML格式（如<b>加粗</b>、<br>换行）来美化排版。"),
      ("parameters", .dict
        [("type", .str "object"),
         ("properties", .dict
           [("action", .dict
              [("type", .str "string"),
               ("enum", .list [.str "create", .str "read", .str "append"]),
               ("description", .str ("操作类型：" ++ apos ++ "create" ++ apos ++
                 "新建，" ++ apos ++ "read" ++ apos ++ "读取内容，" ++ apos ++
                 "append" ++ apos ++ "追加内容。"))]),
            ("title", .dict
              [("type", .str "string"),
               ("description", .str "备忘录标题。create时必须提供；read/append时用于查找目标。")]),
            ("content", .dict
              [("type", .str "string"),
               ("description", .str "备忘录内容。create/append时必须提供。支持HTML标签进行排版美化（例如：<b>标题</b>, <br>换行）。")])]),
         ("required", .list [.str "action", .str "title"])])])]

/-- A registry holding the notes skill, as `_load_static_skills` registers
it (key `schema["function"]["name"]`, source the default name). -/
def notesRegistry : List (String × SkillRec) :=
  [("notes_operator",
    ⟨.dict notesToolSchema, "notes_operator", "python", "notes_operator"⟩)]

/-- C9: searching "备忘录" against a registry with the notes skill returns
that skill with a strictly positive score (0.4: no exact keyword match,
but four skill keywords contain the query keyword as a substring). -/
theorem search_notes_finds_notes_skill :
    ∃ r ∈ searchSkills notesRegistry "备忘录" 5,
      r.name = "notes_operator" ∧ 0 < r.score := by
  have hscore : calculateSimilarity (extractKeywordsSM "备忘录")
      (buildSkillKeywords "notes_operator" (PyVal.dict notesToolSchema)) = 2/5 := by
    unfold calculateSimilarity
    rw [if_neg (by decide)]
    simp only
    rw [outerFold_eq]
    have h1 : ((extractKeywordsSM "备忘录").dedup.filter
        (fun k => k ∈ (buildSkillKeywords "notes_operator"
          (PyVal.dict notesToolSchema)).dedup)).length = 0 := by decide
    have h2 : ((extractKeywordsSM "备忘录").product
        (buildSkillKeywords "notes_operator" (PyVal.dict notesToolSchema))).countP
          (fun p => pyIn p.1 p.2 || pyIn p.2 p.1) = 4 := by decide
    have h3 : max (extractKeywordsSM "备忘录").dedup.length 1 = 1 := by decide
    rw [h1, h2, h3]
    rw [min_eq_left (by norm_num)]
    norm_num
  have h : searchSkills notesRegistry "备忘录" 5 =
      [{ name := "notes_operator",
         description := "macOS 备忘录操作工具。支持创建、读取和追加备忘录。创建时支持HTML格式（如<b>加粗</b>、<br>换行）来美化排版。",
         score := 2/5, source := "notes_operator", sourceType := "python" }] := by
    unfold searchSkills notesRegistry
    simp only [List.map_cons, List.map_nil]
    rw [hscore]
    simp only [List.insertionSort, List.orderedInsert, List.take_succ_cons,
      List.take_nil, List.filterMap_cons, List.filterMap_nil]
    rw [if_pos (show (0:ℚ) < 2/5 by norm_num)]
    simp only [List.cons.injEq, SkillResult.mk.injEq, and_true, true_and]
    decide
  rw [h]
  exact ⟨_, List.mem_singleton_self _, rfl, by norm_num⟩

/-! ### Code cleaning, validation and `create_skill_file` -/

/-- Case-optionally-insensitive literal matcher: `some rest` when the
literal is a prefix of the input (IGNORECASE compares lowercased chars). -/
def matchLit (ci : Bool) : List Char → List Char → Option (List Char)
  | [], rest => some rest
  | _ :: _, [] => none
  | p :: ps, c :: cs =>
    if (if ci then p.toLower == c.toLower else p == c) then matchLit ci ps cs
    else none

/-- Recursion core of `re.sub(lit + r'\s*', '', code)`: remove every
non-overlapping leftmost match of the literal followed by a greedy
whitespace run.  Every step consumes at least one character (the literals
used are nonempty), so a fuel equal to the input length never runs out. -/
def stripMatchesAux (ci : Bool) (lit : List Char) : Nat → List Char → List Char
  | 0, _ => []
  | _ + 1, [] => []
  | fuel + 1, c :: cs =>
    match matchLit ci lit (c :: cs) with
    | some rest => stripMatchesAux ci lit fuel (rest.dropWhile Char.isWhitespace)
    | none => c :: stripMatchesAux ci lit fuel cs

/-- `SkillManager._clean_code_content`: drop ```` ```python ```` fences
(ignoring case), then bare ```` ``` ```` fences, then strip. -/
def cleanCodeContent (code : String) : String :=
  let c1 := stripMatchesAux true "```python".data code.data.length code.data
  let c2 := stripMatchesAux false "```".data c1.length c1
  pyStrip ⟨c2⟩

/-- `SkillManager._validate_skill_code`.  `compiles` is the
`compile(code, '<string>', 'exec')` oracle: `true` iff compilation does
not raise a `SyntaxError`. -/
def validateSkillCode (compiles : String → Bool) (code : String) : Bool :=
  pyIn "def run(" code && pyIn "def get_tool_definition(" code && compiles code

/-- The state `create_skill_file` touches: the skills registry and the
files under the dynamic skills directory.  (`skill_embeddings` is
recomputed from the registry by `_build_skill_index` and is derived
state.) -/
structure SMState where
  skills : List (String × SkillRec)
  files : List (String × String)

/-- `SkillManager.create_skill_file`.  `compiles` is the Python compile
oracle; `guardDangerous` is `code_guard.check_dangerous_code` (an
unavailable `code_guard` module corresponds to the constantly-false
oracle; `check_suspicious_code` only prints); `loadEffect` abstracts what
`_load_skill_from_file` does to the registry when the written module is
imported. -/
def createSkillFile (compiles guardDangerous : String → Bool)
    (loadEffect : String → String → List (String × SkillRec) → List (String × SkillRec))
    (st : SMState) (skillName codeContent : String) : Option String × SMState :=
  let code := cleanCodeContent codeContent
  if ¬ validateSkillCode compiles code then (none, st)
  else if guardDangerous code then (none, st)
  else
    let filepath := "agent_skills/" ++ skillName ++ ".py"
    let st1 : SMState := { st with files := pyAssign st.files filepath code }
    let st2 : SMState := { st1 with skills := loadEffect filepath skillName st1.skills }
    (some filepath, st2)

/-- C2: when the cleaned code fails validation (missing `def run(` or
`def get_tool_definition(` or failing to compile), `create_skill_file`
returns `None` with the registry and the files untouched; and a file is
written only when the cleaned code passes validation. -/
theorem create_skill_file_requires_valid_code
    (compiles guardDangerous : String → Bool)
    (loadEffect : String → String → List (String × SkillRec) → List (String × SkillRec))
    (st : SMState) (skillName codeContent : String) :
    (validateSkillCode compiles (cleanCodeContent codeContent) = false →
       createSkillFile compiles guardDangerous loadEffect st skillName codeContent
         = (none, st)) ∧
    ((createSkillFile compiles guardDangerous loadEffect st skillName codeContent).2.files
        ≠ st.files →
       validateSkillCode compiles (cleanCodeContent codeContent) = true) := by
  constructor
  · intro h
    unfold createSkillFile
    rw [if_pos (by simp [h])]
  · intro h
    by_cases hv : validateSkillCode compiles (cleanCodeContent codeContent) = true
    · exact hv
    · exfalso
      have heq : createSkillFile compiles guardDangerous loadEffect st skillName codeContent
          = (none, st) := by
        unfold createSkillFile
        rw [if_pos (by simpa using hv)]
      rw [heq] at h
      exact h rfl

/-- Witness for C2: code lacking the required definitions is rejected
with no state change (even with an always-succeeding compile oracle). -/
theorem create_skill_file_requires_valid_code_witness :
    createSkillFile (fun _ => true) (fun _ => false) (fun _ _ sk => sk)
      ⟨[], []⟩ "bad_skill" "print(1)" = (none, ⟨[], []⟩) :=
  (create_skill_file_requires_valid_code (fun _ => true) (fun _ => false)
    (fun _ _ sk => sk) ⟨[], []⟩ "bad_skill" "print(1)").1 (by decide)

/-! ### `VectorMemory` (src/core/memory.py) -/

/-- Recursion core of Python `str.split()` (split on whitespace runs,
dropping empty pieces).  Every step consumes at least one character, so a
fuel equal to the input length never runs out. -/
def splitWsAux : Nat → List Char → List (List Char)
  | 0, _ => []
  | _ + 1, [] => []
  | fuel + 1, c :: cs =>
    if c.isWhitespace then splitWsAux fuel cs
    else (c :: cs.takeWhile (fun d => !d.isWhitespace)) ::
           splitWsAux fuel (cs.dropWhile (fun d => !d.isWhitespace))

/-- Python `str.split()`. -/
def pySplit (s : String) : List String :=
  (splitWsAux s.data.length s.data).map (fun w => ⟨w⟩)

/-- The punctuation set of `VectorMemory._extract_keywords`: in the
Python source the adjacent literals `"，。！？、："` and an
apostrophe-bearing one concatenate; the set contains the chars
`，。！？、：`, two ASCII apostrophes (written via code point 39) and the
half/full-width parentheses and brackets. -/
def MEM_STRIP_CHARS : List Char :=
  "，。！？、：".data ++ [Char.ofNat 39, Char.ofNat 39] ++ "()（）[]【】".data

/-- Python `word.strip(chars)`. -/
def pyStripSet (cs : List Char) (s : String) : String :=
  ⟨((s.data.dropWhile (fun c => cs.contains c)).reverse.dropWhile
      (fun c => cs.contains c)).reverse⟩

/-- The `stop_words` of `VectorMemory._extract_keywords`. -/
def MEM_STOP_WORDS : List String :=
  ["的", "是", "在", "了", "和", "与", "或", "有", "这", "那", "我", "你", "他", "她", "它"]

/-- `VectorMemory._extract_keywords` (split on whitespace, strip
punctuation, keep non-stop words longer than one char, lowercase;
`list(set(words))` modelled by `dedup`). -/
def extractKeywordsMem (text : String) : List String :=
  ((pySplit text).filterMap (fun w =>
    let clean := pyStripSet MEM_STRIP_CHARS w
    if 1 < clean.length ∧ clean ∉ MEM_STOP_WORDS then some (pyLower clean)
    else none)).dedup

/-- One memory entry.  The wall-clock `timestamp` and the free-form
`metadata` dict are environment/opaque values and are omitted. -/
structure MemEntry where
  id : String
  content : String
  importance : ℚ
  accessCount : Nat
deriving DecidableEq

/-- The in-memory state of a `VectorMemory` (the three JSON files mirror
it on disk; `_save_to_disk` is a no-op in the model). -/
structure MemState where
  maxShortTerm : Nat
  shortTermMemory : List (String × MemEntry)
  longTermMemory : List (String × MemEntry)
  memoryIndex : List (String × List String)
deriving DecidableEq

/-- `VectorMemory._update_index`. -/
def updateIndex (st : MemState) (memoryId content : String) : MemState :=
  { st with memoryIndex :=
      (extractKeywordsMem content).foldl (fun idx kw =>
        let ids := (idx.lookup kw).getD []
        if memoryId ∈ ids then pyAssign idx kw ids
        else pyAssign idx kw (ids ++ [memoryId])) st.memoryIndex }

/-- `VectorMemory._compress_short_term`: stable sort by importance,
descending (Python's stable `sort(key=..., reverse=True)` modelled by the
stable `insertionSort`), keeping the first `max_short_term` items. -/
def compressShortTerm (st : MemState) : MemState :=
  { st with shortTermMemory :=
      (st.shortTermMemory.insertionSort
        (fun a b => b.2.importance ≤ a.2.importance)).take st.maxShortTerm }

/-- `VectorMemory.add`.  The memory id is `md5(content + time)[:12]` —
time-dependent, so it is a parameter; `0.7` is `Rat.divInt 7 10`. -/
def addMemory (st : MemState) (memoryId content : String) (importance : ℚ) :
    String × MemState :=
  let entry : MemEntry := ⟨memoryId, content, importance, 0⟩
  let st := { st with shortTermMemory := pyAssign st.shortTermMemory memoryId entry }
  let st := updateIndex st memoryId content
  let st :=
    if Rat.divInt 7 10 ≤ importance then
      { st with longTermMemory := pyAssign st.longTermMemory memoryId entry }
    else st
  let st :=
    if st.maxShortTerm < st.shortTermMemory.length then compressShortTerm st else st
  (memoryId, st)

/-! ### Lemmas about dict assignment and `add` -/

theorem lookup_none_keys {α : Type} (l : List (String × α)) (k : String)
    (h : l.lookup k = none) : l.any (fun p => p.1 == k) = false := by
  induction l with
  | nil => rfl
  | cons p ps ih =>
    obtain ⟨a, v⟩ := p
    simp only [List.lookup] at h
    cases hk : (k == a) with
    | true => rw [hk] at h; simp at h
    | false =>
      rw [hk] at h
      have ha : (a == k) = false :=
        beq_eq_false_iff_ne.mpr (fun hh => (beq_eq_false_iff_ne.mp hk) hh.symm)
      simp only [List.any_cons, ha, ih h, Bool.or_self]

theorem pyAssign_fresh {α : Type} (l : List (String × α)) (k : String) (v : α)
    (h : l.lookup k = none) : pyAssign l k v = l ++ [(k, v)] := by
  unfold pyAssign
  rw [lookup_none_keys l k h]
  simp

theorem lookup_append_self {α : Type} (l : List (String × α)) (k : String) (v : α)
    (h : l.lookup k = none) : (l ++ [(k, v)]).lookup k = some v := by
  induction l with
  | nil => simp [List.lookup]
  | cons p ps ih =>
    obtain ⟨a, w⟩ := p
    rw [List.cons_append]
    simp only [List.lookup] at h ⊢
    cases hk : (k == a) with
    | true => rw [hk] at h; simp at h
    | false =>
      rw [hk] at h
      exact ih h

/-- The long-term store after `add`: updated exactly when
`importance >= 0.7`, untouched by short-term compression. -/
theorem addMemory_long_eq (st : MemState) (memoryId content : String) (imp : ℚ) :
    ((addMemory st memoryId content imp).2).longTermMemory =
      (if Rat.divInt 7 10 ≤ imp then
        pyAssign st.longTermMemory memoryId ⟨memoryId, content, imp, 0⟩
      else st.longTermMemory) := by
  simp only [addMemory, updateIndex, compressShortTerm]
  by_cases h7 : Rat.divInt 7 10 ≤ imp
  · rw [if_pos h7, if_pos h7]
    split <;> rfl
  · rw [if_neg h7, if_neg h7]
    split <;> rfl

/-- The short-term store after `add`: the entry is inserted (dict
assignment), then the store is compressed when it exceeds
`max_short_term`. -/
theorem addMemory_short_eq (st : MemState) (memoryId content : String) (imp : ℚ) :
    ((addMemory st memoryId content imp).2).shortTermMemory =
      (if st.maxShortTerm <
          (pyAssign st.shortTermMemory memoryId ⟨memoryId, content, imp, 0⟩).length then
        ((pyAssign st.shortTermMemory memoryId
            ⟨memoryId, content, imp, 0⟩).insertionSort
          (fun a b => b.2.importance ≤ a.2.importance)).take st.maxShortTerm
      else pyAssign st.shortTermMemory memoryId ⟨memoryId, content, imp, 0⟩) := by
  simp only [addMemory, updateIndex, compressShortTerm]
  by_cases h7 : Rat.divInt 7 10 ≤ imp
  · rw [if_pos h7]
    split <;> rfl
  · rw [if_neg h7]
    split <;> rfl

/-- C6 (counterexample): with `max_short_term = 1` and one entry of
importance 0.9 in the store, adding an entry of importance 0.3 (< 0.7)
leaves it in neither store — compression evicts it from short-term at
once, against the claim that it is present there. -/
theorem memory_add_counterexample :
    Rat.divInt 3 10 < Rat.divInt 7 10 ∧
    ((addMemory (addMemory ⟨1, [], [], []⟩ "id_a" "alpha beta"
        (Rat.divInt 9 10)).2 "id_b" "gamma delta"
        (Rat.divInt 3 10)).2).shortTermMemory.lookup "id_b" = none := by
  exact ⟨by decide, by decide⟩

/-- C6 (amended): for a fresh memory id, `add` puts the entry in the
long-term store iff `importance >= 0.7`; the entry lands in the
short-term store and stays there whenever the store was below capacity;
and when the store overflows, compression keeps the `max_short_term`
highest-importance entries — every kept entry's importance is at least
every evicted entry's — so the new entry itself may be evicted at once. -/
theorem memory_add_spec (st : MemState) (memoryId content : String) (importance : ℚ)
    (hfreshS : st.shortTermMemory.lookup memoryId = none)
    (hfreshL : st.longTermMemory.lookup memoryId = none) :
    (Rat.divInt 7 10 ≤ importance →
       ((addMemory st memoryId content importance).2).longTermMemory.lookup memoryId
         = some ⟨memoryId, content, importance, 0⟩) ∧
    (importance < Rat.divInt 7 10 →
       ((addMemory st memoryId content importance).2).longTermMemory.lookup memoryId
         = none) ∧
    (st.shortTermMemory.length < st.maxShortTerm →
       ((addMemory st memoryId content importance).2).shortTermMemory.lookup memoryId
         = some ⟨memoryId, content, importance, 0⟩) ∧
    (∀ kept ∈ ((addMemory st memoryId content importance).2).shortTermMemory,
       ∀ dropped ∈ st.shortTermMemory ++
           [(memoryId, (⟨memoryId, content, importance, 0⟩ : MemEntry))],
         dropped ∉ ((addMemory st memoryId content importance).2).shortTermMemory →
         dropped.2.importance ≤ kept.2.importance) := by
  have hassignS : pyAssign st.shortTermMemory memoryId
      ⟨memoryId, content, importance, 0⟩ =
      st.shortTermMemory ++ [(memoryId, ⟨memoryId, content, importance, 0⟩)] :=
    pyAssign_fresh _ _ _ hfreshS
  refine ⟨?_, ?_, ?_, ?_⟩
  · intro h7
    rw [addMemory_long_eq, if_pos h7, pyAssign_fresh _ _ _ hfreshL]
    exact lookup_append_self _ _ _ hfreshL
  · intro h7
    rw [addMemory_long_eq, if_neg (not_le.mpr h7)]
    exact hfreshL
  · intro hlen
    rw [addMemory_short_eq, if_neg ?_]
    · rw [hassignS]
      exact lookup_append_self _ _ _ hfreshS
    · rw [hassignS]
      simp only [List.length_append, List.length_cons, List.length_nil]
      omega
  · intro kept hkept dropped hdropped hdropNotIn
    rw [addMemory_short_eq, hassignS] at hkept hdropNotIn
    by_cases hc : st.maxShortTerm <
        (st.shortTermMemory ++
          [(memoryId, (⟨memoryId, content, importance, 0⟩ : MemEntry))]).length
    · rw [if_pos hc] at hkept hdropNotIn
      haveI : IsTotal (String × MemEntry)
          (fun a b => b.2.importance ≤ a.2.importance) := ⟨fun _ _ => le_total _ _⟩
      haveI : IsTrans (String × MemEntry)
          (fun a b => b.2.importance ≤ a.2.importance) :=
        ⟨fun _ _ _ hab hbc => le_trans hbc hab⟩
      have hsorted := List.sorted_insertionSort
        (fun (a b : String × MemEntry) => b.2.importance ≤ a.2.importance)
        (st.shortTermMemory ++
          [(memoryId, (⟨memoryId, content, importance, 0⟩ : MemEntry))])
      have hperm := List.perm_insertionSort
        (fun (a b : String × MemEntry) => b.2.importance ≤ a.2.importance)
        (st.shortTermMemory ++
          [(memoryId, (⟨memoryId, content, importance, 0⟩ : MemEntry))])
      have hd2 := hperm.symm.subset hdropped
      rw [← List.take_append_drop st.maxShortTerm
        ((st.shortTermMemory ++
          [(memoryId, (⟨memoryId, content, importance, 0⟩ : MemEntry))]).insertionSort
          (fun a b => b.2.importance ≤ a.2.importance))] at hsorted hd2
      have hd3 : dropped ∈
          ((st.shortTermMemory ++
            [(memoryId, (⟨memoryId, content, importance, 0⟩ : MemEntry))]).insertionSort
            (fun a b => b.2.importance ≤ a.2.importance)).drop st.maxShortTerm := by
        rcases List.mem_append.mp hd2 with h | h
        · exact absurd h hdropNotIn
        · exact h
      exact (List.pairwise_append.mp hsorted).2.2 kept hkept dropped hd3
    · rw [if_neg hc] at hdropNotIn
      exact absurd hdropped hdropNotIn

/-- Witness for C6 (amended) at a fresh id, importance 0.8, capacity 2. -/
theorem memory_add_spec_witness :
    ((addMemory ⟨2, [], [], []⟩ "id_x" "hello world"
        (Rat.divInt 8 10)).2).longTermMemory.lookup "id_x"
      = some ⟨"id_x", "hello world", Rat.divInt 8 10, 0⟩ :=
  (memory_add_spec ⟨2, [], [], []⟩ "id_x" "hello world" (Rat.divInt 8 10)
    rfl rfl).1 (by decide)

end Neo
